import Mathlib

/-!
Shallow embedding of the grid-leader assessment application (`app.py`):
the scoring engine (`calculate_total_score`, grade bucketing against
`THRESHOLDS`), the dimension registry (`DIMENSIONS`, `WEIGHTS`), date
parsing/normalisation used by the bulk importer, and the SQLite-backed
leader/assessment store with its insert, update, purge and
latest-per-leader query.

Numbers are embedded as `ℚ` (the Python code works with `float`/`REAL`
values; all values appearing in the claims are exactly representable).
A Python dict of scores is an association list whose values are
`Option ℚ`: `none` stands for Python `None` / SQL `NULL`.  A Python
`TypeError` raised by `None * weight` is modelled by the scoring
function returning `none`.
-/

namespace Wgz

/-- A score cell as the Python code sees it: `some q` for a number,
`none` for Python `None` (a SQL `NULL` read back from the database). -/
abbrev Score := Option ℚ

/-- A Python dict mapping dimension name to score cell, kept in
insertion order. -/
abbrev ScoreDict := List (String × Score)

/-- Python `scores.get(dim, 0)`: the default `0` is used only when the
key is absent; a key that is present with value `None` yields `None`. -/
def dictGet (scores : ScoreDict) (k : String) : Score :=
  match scores.find? (fun p => p.1 == k) with
  | none => some 0
  | some p => p.2

/-- Python `scores[k] = v`: overwrite in place if the key exists,
otherwise append (dicts keep insertion order). -/
def dictSet (scores : ScoreDict) (k : String) (v : Score) : ScoreDict :=
  if scores.any (fun p => p.1 == k) then
    scores.map (fun p => if p.1 == k then (k, v) else p)
  else
    scores ++ [(k, v)]

/-- `handle_none_scores(scores, dimensions)` (app.py line 101): for each
dimension, if it is absent from the dict or mapped to `None`, set it
to `0`.  (Defined in the source but never called on any path.) -/
def handle_none_scores (scores : ScoreDict) (dims : List String) : ScoreDict :=
  dims.foldl
    (fun s dim =>
      match s.find? (fun p => p.1 == dim) with
      | none => dictSet s dim (some 0)
      | some p => if p.2 = none then dictSet s dim (some 0) else s)
    scores

/-- `calculate_total_score(scores, weights, dimensions)` (app.py line
108): `total = 0; for dim in dimensions: total += scores.get(dim, 0) *
weights[dim]`.  If `scores.get(dim, 0)` returns Python `None` (key
present, value `None`) the multiplication raises `TypeError`; that is
the `none` result here.  `weights` is total on the dimensions used, as
`WEIGHTS` is in the source. -/
def calculate_total_score (scores : ScoreDict) (weights : String → ℚ)
    (dims : List String) : Option ℚ :=
  dims.foldl
    (fun acc dim =>
      match acc, dictGet scores dim with
      | some t, some v => some (t + v * weights dim)
      | _, _ => none)
    (some 0)

/-- `validate_score(score)` (app.py line 47) on a numeric input:
`0 <= score <= 100`.  (Defined in the source but never called.) -/
def validate_score (s : ℚ) : Bool :=
  decide (0 ≤ s) && decide (s ≤ 100)

/-- The 22 ability dimensions (app.py line 139). -/
def DIMENSIONS : List String :=
  ["专业技术能力", "指标掌控能力", "管理执行能力", "沟通协调能力", "市场营销能力",
   "超长工单占比", "催单率", "上门及时率", "重复投诉率", "万投比",
   "触点服务客户满意占比", "质差客户占比", "家宽单用户中断时长", "家宽弱光率",
   "任务工单支撑及时率", "交班交底率", "终端盘点", "人员达标率",
   "低销占比", "商机转化率", "元宝完成率", "终端收入"]

/-- The database column for each dimension, in the same order
(app.py line 148). -/
def db_columns : List String :=
  ["professional_skill", "index_mastery", "management_execution",
   "communication_coordination", "marketing_ability",
   "long_work_order_ratio", "reminder_rate", "on_site_timeliness",
   "repeat_complaint_rate", "complaints_per_ten_thousand",
   "contact_service_satisfaction", "poor_quality_customer_ratio",
   "home_broadband_interrupt_duration", "home_broadband_weak_light_rate",
   "task_support_timeliness", "handover_rate", "terminal_inventory",
   "personnel_qualified_rate", "low_sales_ratio",
   "business_opportunity_conversion_rate", "yuanbao_completion_rate",
   "terminal_revenue"]

/-- `WEIGHTS = {dim: 1/len(DIMENSIONS) for dim in DIMENSIONS}`
(app.py line 158): the uniform weight `1/22` for every dimension. -/
def WEIGHTS : String → ℚ := fun _ => 1 / (DIMENSIONS.length : ℚ)

/-- The grade threshold table: lower bounds for the three named
buckets. -/
structure Thresholds where
  excellent : ℚ
  good : ℚ
  acceptable : ℚ
deriving DecidableEq

/-- `THRESHOLDS = {"优秀": 85, "良好": 75, "合格": 60}`
(app.py line 159). -/
def THRESHOLDS : Thresholds := ⟨85, 75, 60⟩

/-- The four grade labels, `excellent`/`good`/`acceptable`/
`needsImprovement` standing for 优秀/良好/合格/待改进. -/
inductive Grade
  | excellent
  | good
  | acceptable
  | needsImprovement
deriving DecidableEq

/-- The chained conditional of app.py lines 699-701:
`"优秀" if total >= thr["优秀"] else "良好" if total >= thr["良好"] else
"合格" if total >= thr["合格"] else "待改进"`. -/
def grade (thr : Thresholds) (total : ℚ) : Grade :=
  if thr.excellent ≤ total then Grade.excellent
  else if thr.good ≤ total then Grade.good
  else if thr.acceptable ≤ total then Grade.acceptable
  else Grade.needsImprovement

/-- Rank of a grade in the order 优秀 > 良好 > 合格 > 待改进; a larger
rank is a better grade. -/
def gradeRank : Grade → Nat
  | Grade.excellent => 3
  | Grade.good => 2
  | Grade.acceptable => 1
  | Grade.needsImprovement => 0

/-- A calendar date as produced by `datetime.strptime`. -/
structure Date where
  y : Nat
  m : Nat
  d : Nat
deriving DecidableEq

/-- The ASCII character for a decimal digit `n < 10`. -/
def digitChar (n : Nat) : Char := Char.ofNat (48 + n)

/-- A number rendered as exactly two decimal digits, zero padded
(`strftime` `%m` / `%d`). -/
def pad2 (n : Nat) : List Char := [digitChar (n / 10 % 10), digitChar (n % 10)]

/-- A number rendered as exactly four decimal digits, zero padded: the
`%Y` rendering of the four-digit years 1000-9999. -/
def pad4 (n : Nat) : List Char := pad2 (n / 100) ++ pad2 (n % 100)

/-- The year as `strftime`'s `%Y` renders it: CPython delegates to the
C library, and glibc prints the year in decimal WITHOUT zero padding, so
a year below 1000 prints with fewer than four digits (year 99 → `99`).
Rendered here for the years the program can produce: the parser accepts
at most four digits and the wall clock stays below the year 10000. -/
def padYear (n : Nat) : List Char :=
  if n < 10 then [digitChar n]
  else if n < 100 then pad2 n
  else if n < 1000 then digitChar (n / 100 % 10) :: pad2 (n % 100)
  else pad4 n

/-- The characters of `date_obj.strftime('%Y/%m/%d')` (app.py lines 354
and 383): the storage format for both `date` and the import timestamp —
unpadded year (glibc `%Y`), zero-padded month and day. -/
def formatDateChars (dt : Date) : List Char :=
  padYear dt.y ++ '/' :: (pad2 dt.m ++ '/' :: pad2 dt.d)

/-- `date_obj.strftime('%Y/%m/%d')` as a string. -/
def formatDate (dt : Date) : String := String.mk (formatDateChars dt)

/-- Decimal digit test, ASCII range.  (The embedding models ASCII date
strings; `strptime`'s `\d` additionally matches non-ASCII decimal
digits, which are outside this model.) -/
def isDigitC (c : Char) : Bool :=
  decide (48 ≤ c.toNat) && decide (c.toNat ≤ 57)

/-- The character class Python's regex `\s` matches in a text pattern:
tab through carriage return, space, the four ASCII separators 28-31,
next line, no-break space and the Unicode space characters.  The
whitespace of the `'%Y-%m-%d %H:%M:%S'` format compiles to `\s+` over
exactly this class. -/
def isSpaceC (c : Char) : Bool :=
  let n := c.toNat
  (decide (9 ≤ n) && decide (n ≤ 13)) || decide (n = 32)
    || (decide (28 ≤ n) && decide (n ≤ 31)) || decide (n = 133)
    || decide (n = 160) || decide (n = 5760)
    || (decide (8192 ≤ n) && decide (n ≤ 8202)) || decide (n = 8232)
    || decide (n = 8233) || decide (n = 8239) || decide (n = 8287)
    || decide (n = 12288)

/-- Numeric value of a string of decimal digit characters. -/
def digitsVal (cs : List Char) : Nat :=
  cs.foldl (fun a c => 10 * a + (c.toNat - 48)) 0

/-- Gregorian leap-year rule used by `datetime`'s day-of-month
validation. -/
def isLeap (y : Nat) : Bool :=
  (y % 4 == 0 && y % 100 != 0) || (y % 400 == 0)

/-- Days in a month, as enforced by the `datetime` constructor. -/
def daysInMonth (y m : Nat) : Nat :=
  if m = 2 then (if isLeap y then 29 else 28)
  else if m = 4 ∨ m = 6 ∨ m = 9 ∨ m = 11 then 30
  else 31

/-- `datetime.strptime(s, '%Y-%m-%d')` (app.py line 382): exactly four
digits of year, dash, one or two digits of month in 1..12, dash, one or
two digits of day, with the day validated against the month length. -/
def parseYMD (s : List Char) : Option Date :=
  match s.splitOn '-' with
  | [ys, ms, ds] =>
    if ys.all isDigitC && decide (ys.length = 4)
        && ms.all isDigitC && decide (1 ≤ ms.length) && decide (ms.length ≤ 2)
        && ds.all isDigitC && decide (1 ≤ ds.length) && decide (ds.length ≤ 2) then
      let y := digitsVal ys
      let m := digitsVal ms
      let d := digitsVal ds
      if decide (1 ≤ y) && decide (1 ≤ m) && decide (m ≤ 12)
          && decide (1 ≤ d) && decide (d ≤ daysInMonth y m) then
        some ⟨y, m, d⟩
      else none
    else none
  | _ => none

/-- The `%H:%M:%S` part of `datetime.strptime(s, '%Y-%m-%d %H:%M:%S')`:
one or two digits each for hour (0..23), minute (0..59) and second
(0..59 — the `%S` pattern itself admits 60 and 61, but the `datetime`
constructor then raises `second must be in 0..59`, so such rows abort
the ingestion like any other bad date).  Only validity matters; the
stored value keeps the date part alone. -/
def parseHMS (s : List Char) : Bool :=
  match s.splitOn ':' with
  | [hs, ms, ss] =>
    hs.all isDigitC && decide (1 ≤ hs.length) && decide (hs.length ≤ 2)
      && ms.all isDigitC && decide (1 ≤ ms.length) && decide (ms.length ≤ 2)
      && ss.all isDigitC && decide (1 ≤ ss.length) && decide (ss.length ≤ 2)
      && decide (digitsVal hs ≤ 23) && decide (digitsVal ms ≤ 59)
      && decide (digitsVal ss ≤ 59)
  | _ => false

/-- Per-row date handling of app.py lines 376-383: `if ' ' in date_str`
(an ASCII-space test) parse with `'%Y-%m-%d %H:%M:%S'`, else with
`'%Y-%m-%d'`; `none` is the `ValueError` branch that aborts the
ingestion.  The compiled format anchors at both ends and its blank
matches one or more `\s` characters, so the date part is the maximal
whitespace-free prefix, the separating whitespace run is skipped, and
everything after it (which may not contain further whitespace — the
digit checks of `parseHMS` enforce that) must be the time part; leading
or trailing whitespace lands in the date or time part and fails. -/
def parseDateChars (s : List Char) : Option Date :=
  if s.contains ' ' then
    match parseYMD (s.takeWhile (fun c => !isSpaceC c)) with
    | some dt =>
      if parseHMS ((s.dropWhile (fun c => !isSpaceC c)).dropWhile isSpaceC) then
        some dt
      else none
    | none => none
  else parseYMD s

/-- Date parsing on strings. -/
def parseDate (s : String) : Option Date := parseDateChars s.data

/-- Chronological strict order on dates (year, then month, then day). -/
def dateLtB (x y : Date) : Bool :=
  decide (x.y < y.y ∨ (x.y = y.y ∧ (x.m < y.m ∨ (x.m = y.m ∧ x.d < y.d))))

/-- The field bounds guaranteed for every date the parser accepts; they
are what the zero-padded rendering needs to be order-faithful. -/
def validDate (dt : Date) : Prop :=
  dt.y ≤ 9999 ∧ dt.m ≤ 99 ∧ dt.d ≤ 99

instance (dt : Date) : Decidable (validDate dt) := by
  unfold validDate; infer_instance

/-- Byte-wise lexicographic strict comparison of strings as character
lists: SQLite's default `memcmp` collation on the ASCII date strings the
store holds, used by `MAX(date)`, `ORDER BY date DESC` and
`import_date < cutoff`. -/
def clexLt : List Char → List Char → Bool
  | [], [] => false
  | [], _ :: _ => true
  | _ :: _, [] => false
  | a :: as, b :: bs =>
    if a.toNat < b.toNat then true
    else if b.toNat < a.toNat then false
    else clexLt as bs

/-- Larger of two strings under the store's comparison. -/
def strMax (a b : String) : String := if clexLt a.data b.data then b else a

/-- `MAX(date)` over a group of rows: `none` on the empty group. -/
def maxDate : List String → Option String
  | [] => none
  | s :: rest => some (rest.foldl strMax s)

/-- A row of the `grid_leaders` table (app.py lines 200-206).  The
schema declares only `id INTEGER PRIMARY KEY AUTOINCREMENT`; there is no
`UNIQUE (name, area)` constraint. -/
structure Leader where
  id : Nat
  name : String
  area : String
deriving DecidableEq

/-- A row of the `assessments` table (app.py lines 209-239): `scores`
lists the values of the 22 dimension columns in `db_columns` order, with
`none` for SQL `NULL`. -/
structure Assessment where
  id : Nat
  leader_id : Nat
  date : String
  scores : List (Option ℚ)
  import_date : String
deriving DecidableEq

/-- The persistent state: both tables plus the next `AUTOINCREMENT`
value of each. -/
structure Store where
  leaders : List Leader
  assessments : List Assessment
  nextLeaderId : Nat
  nextAssessId : Nat
deriving DecidableEq

/-- A fresh database: `AUTOINCREMENT` ids start at 1. -/
def emptyStore : Store := ⟨[], [], 1, 1⟩

/-- One uploaded row after the column-mapping stage of `import_data`
(app.py lines 355-365): name, area and date come from their mapped
columns, and `scores` holds the value assigned to each of the 22
database columns in `db_columns` order (a column mapped to the
no-match sentinel has already been set to `0`). -/
structure Row where
  name : String
  area : String
  date : String
  scores : List ℚ
deriving DecidableEq

/-- `INSERT OR IGNORE INTO grid_leaders (name, area) VALUES (?, ?)`
(app.py line 351).  Because `grid_leaders` has no uniqueness constraint
on `(name, area)`, `OR IGNORE` can never fire: the row is always
inserted with a fresh id. -/
def addLeader (st : Store) (n a : String) : Store :=
  { st with
    leaders := st.leaders ++ [⟨st.nextLeaderId, n, a⟩],
    nextLeaderId := st.nextLeaderId + 1 }

/-- `df.drop_duplicates(subset=[name_col, area_col])` (app.py line 347):
keep the first row for each distinct (name, area) pair, in order. -/
def dedupRows (rows : List Row) : List Row :=
  rows.foldl
    (fun acc r =>
      if acc.any (fun r2 => r2.name == r.name && r2.area == r.area) then acc
      else acc ++ [r])
    []

/-- The leader-insertion loop of app.py lines 347-351. -/
def insertLeaders (rows : List Row) (st : Store) : Store :=
  (dedupRows rows).foldl (fun s r => addLeader s r.name r.area) st

/-- `SELECT id FROM grid_leaders WHERE name = ?` followed by
`fetchone()` (app.py lines 371-372): the first row with that name, by
name only. -/
def findLeaderIdByName (st : Store) (n : String) : Option Nat :=
  (st.leaders.find? (fun g => g.name == n)).map Leader.id

/-- `INSERT INTO assessments (leader_id, date, <dimension columns>,
import_date) VALUES (...)` (app.py lines 389-395). -/
def addAssessment (st : Store) (lid : Nat) (dateV : String)
    (scores : List ℚ) (imp : String) : Store :=
  { st with
    assessments :=
      st.assessments ++ [⟨st.nextAssessId, lid, dateV, scores.map some, imp⟩],
    nextAssessId := st.nextAssessId + 1 }

/-- The assessment-insertion loop of app.py lines 368-395.  A row whose
leader lookup fails is skipped (`if leader:` has no else branch).  A row
whose date fails to parse reaches `return False` inside the
`with conn:` block: a normal exit of the sqlite3 context manager, which
COMMITS everything executed so far, so the partially built state is
returned alongside `false`. -/
def insertAssessments (imp : String) : List Row → Store → Bool × Store
  | [], st => (true, st)
  | r :: rs, st =>
    match findLeaderIdByName st r.name with
    | none => insertAssessments imp rs st
    | some lid =>
      match parseDate r.date with
      | none => (false, st)
      | some dt =>
        insertAssessments imp rs
          (addAssessment st lid (formatDate dt) r.scores imp)

/-- The database effect of `import_data` (app.py lines 343-401) after
the column mapping has been confirmed: insert the deduplicated leaders,
then insert one assessment per row, stamping each with
`datetime.now().strftime('%Y/%m/%d')` as the import date.  The boolean
is the function's return value; on `false` the state reached so far has
been committed (see `insertAssessments`). -/
def import_data (rows : List Row) (now : Date) (st : Store) : Bool × Store :=
  insertAssessments (formatDate now) rows (insertLeaders rows st)

/-- `update_assessment(assessment_id, scores)` (app.py lines 55-77):
`UPDATE assessments SET <every dimension column> = ? WHERE id = ?`,
overwriting all 22 dimension fields of the named record with the
supplied values and performing no validation. -/
def update_assessment (st : Store) (aid : Nat) (scores : List ℚ) : Store :=
  { st with
    assessments :=
      st.assessments.map
        (fun a => if a.id == aid then { a with scores := scores.map some } else a) }

/-- `clear_expired_data` (app.py lines 437-455):
`DELETE FROM assessments WHERE import_date < ?` with the cutoff rendered
by `strftime('%Y/%m/%d')`; the comparison is SQLite's string order. -/
def clear_expired_data (st : Store) (cutoff : Date) : Store :=
  { st with
    assessments :=
      st.assessments.filter
        (fun a => !clexLt a.import_date.data (formatDate cutoff).data) }

/-- The dates of one leader's assessment rows (the `GROUP BY leader_id`
group of app.py lines 652-655). -/
def leaderDates (st : Store) (lid : Nat) : List String :=
  (st.assessments.filter (fun a => a.leader_id == lid)).map Assessment.date

/-- `get_all_leaders_assessments()` (app.py lines 639-664):
`SELECT a.*, g.name, g.area FROM assessments a JOIN grid_leaders g ON
a.leader_id = g.id WHERE (a.leader_id, a.date) IN (SELECT leader_id,
MAX(date) FROM assessments GROUP BY leader_id)`.  An assessment joined
with its leader(s) is kept iff its date equals the maximum date of its
own leader group. -/
def get_all_leaders_assessments (st : Store) : List (Assessment × Leader) :=
  ((st.assessments.map
      (fun a =>
        (st.leaders.filter (fun g => g.id == a.leader_id)).map
          (fun g => (a, g)))).flatten).filter
    (fun p => maxDate (leaderDates st p.1.leader_id) == some p.1.date)

/-- The all-zero dimension values of a row whose 22 columns were all
mapped to the no-match sentinel. -/
def zeroScores : List ℚ := List.replicate 22 0

/-- A well-formed upload row. -/
def rowZhang : Row := ⟨"张三", "A区", "2024-01-01", zeroScores⟩

/-- An upload row whose date `0099-12-31` the parser accepts with the
three-digit year 99. -/
def row0099 : Row := ⟨"钱七", "E区", "0099-12-31", zeroScores⟩

/-- An upload row carrying the out-of-range score 150 in its first
dimension column (`professional_skill`). -/
def rowBigScore : Row := ⟨"李四", "B区", "2024-01-01", (150 : ℚ) :: List.replicate 21 0⟩

/-- A wall-clock date for import stamps in the concrete scenarios. -/
def nowDate : Date := ⟨2025, 1, 2⟩

/-- A weight table summing to 1 that is not nonnegative:
`{A: 2, B: -1}`. -/
def wMixed : String → ℚ := fun d => if d = "A" then 2 else -1

/-- Equal weights of one half for the two-dimension scenario of the
specification (`{A: 0.5, B: 0.5}`). -/
def wHalf : String → ℚ := fun _ => 1 / 2

/-- The assessment row produced by importing `rowZhang` into the empty
store with wall-clock date `nowDate`. -/
def aZhang : Assessment := ⟨1, 1, "2024/01/01", zeroScores.map some, "2025/01/02"⟩

/-- A store holding one leader with two assessments sharing the same
(maximal) date. -/
def tieStore : Store :=
  ⟨[⟨1, "张三", "A区"⟩],
   [⟨1, 1, "2024/01/01", zeroScores.map some, "2025/01/02"⟩,
    ⟨2, 1, "2024/01/01", zeroScores.map some, "2025/01/02"⟩],
   2, 3⟩

/-- The scoring loop, started from accumulator `t`, computes `t` plus
the weighted sum of the looked-up values, provided no looked-up value is
Python `None`. -/
theorem calc_foldl_eq_sum (scores : ScoreDict) (w : String → ℚ) :
    ∀ (dims : List String) (t : ℚ),
      (∀ d ∈ dims, dictGet scores d ≠ none) →
      dims.foldl
        (fun acc dim =>
          match acc, dictGet scores dim with
          | some t, some v => some (t + v * w dim)
          | _, _ => none)
        (some t)
        = some (t + (dims.map (fun d => (dictGet scores d).getD 0 * w d)).sum)
  | [], t, _ => by simp
  | d :: ds, t, h => by
    obtain ⟨v, hv⟩ : ∃ v, dictGet scores d = some v := by
      cases hdg : dictGet scores d
      · exact absurd hdg (h d (List.mem_cons_self d ds))
      · exact ⟨_, rfl⟩
    simp only [List.foldl_cons, hv]
    rw [calc_foldl_eq_sum scores w ds (t + v * w d)
        (fun x hx => h x (List.mem_cons_of_mem d hx))]
    simp [hv, add_assoc]

/-- `calculate_total_score` equals the weighted sum
`Σ scores.get(dim, 0) * weights[dim]` whenever no looked-up value is
Python `None`. -/
theorem calc_eq_sum (scores : ScoreDict) (w : String → ℚ) (dims : List String)
    (h : ∀ d ∈ dims, dictGet scores d ≠ none) :
    calculate_total_score scores w dims
      = some ((dims.map (fun d => (dictGet scores d).getD 0 * w d)).sum) := by
  unfold calculate_total_score
  rw [calc_foldl_eq_sum scores w dims 0 h, zero_add]

/-- C2: with dimensions `A` and `B` of weight `0.5` each, and the
configured threshold table `THRESHOLDS = {Excellent: 85, Good: 75,
Acceptable: 60}`, the record `{A: 90, B: 80}` totals `85` and grades
Excellent, and the record `{A: 90}` (with `B` absent) totals `45` and
grades NeedsImprovement. -/
theorem C2_concrete_scenario :
    THRESHOLDS = ⟨85, 75, 60⟩ ∧
    calculate_total_score [("A", some 90), ("B", some 80)] wHalf ["A", "B"] = some 85 ∧
    grade THRESHOLDS 85 = Grade.excellent ∧
    calculate_total_score [("A", some 90)] wHalf ["A", "B"] = some 45 ∧
    grade THRESHOLDS 45 = Grade.needsImprovement := by
  have gA : dictGet [("A", some 90), ("B", some 80)] "A" = some 90 := rfl
  have gB : dictGet [("A", some 90), ("B", some 80)] "B" = some 80 := rfl
  have gA2 : dictGet [("A", some 90)] "A" = some 90 := rfl
  have gB2 : dictGet [("A", some 90)] "B" = some 0 := rfl
  refine ⟨rfl, ?_, by decide, ?_, by decide⟩
  · rw [calc_eq_sum _ _ _ (by decide)]
    simp only [List.map_cons, List.map_nil, List.sum_cons, List.sum_nil,
      gA, gB, Option.getD_some, wHalf]
    norm_num
  · rw [calc_eq_sum _ _ _ (by decide)]
    simp only [List.map_cons, List.map_nil, List.sum_cons, List.sum_nil,
      gA2, gB2, Option.getD_some, wHalf]
    norm_num

/-- C4 (code bug): importing the same one-row dataset twice into an
empty store duplicates the leader identity.  `grid_leaders` has no
`UNIQUE (name, area)` constraint, so the importer's
`INSERT OR IGNORE` always inserts: after the second import the store
holds two `grid_leaders` rows with the same (name, area) — the claim
says repeated imports never create duplicate Leader identities.  The
record count does double, as the claim says. -/
theorem C4_second_import_duplicates_leader :
    (import_data [rowZhang] nowDate
        (import_data [rowZhang] nowDate emptyStore).2).2.leaders
      = [⟨1, "张三", "A区"⟩, ⟨2, "张三", "A区"⟩] ∧
    (import_data [rowZhang] nowDate
        (import_data [rowZhang] nowDate emptyStore).2).2.assessments.length = 2 := by
  refine ⟨by decide, by decide⟩

/-- C5 (code bug): no write path validates scores.  `validate_score`
rejects 150, yet importing a row whose `professional_skill` value is 150
succeeds and persists the value, and `update_assessment` likewise
overwrites a record with the out-of-range value — so an out-of-range
dimension value is persisted, contrary to the claim. -/
theorem C5_out_of_range_score_is_persisted :
    validate_score 150 = false ∧
    (import_data [rowBigScore] nowDate emptyStore).1 = true ∧
    (import_data [rowBigScore] nowDate emptyStore).2.assessments
      = [⟨1, 1, "2024/01/01", ((150 : ℚ) :: List.replicate 21 0).map some,
          "2025/01/02"⟩] ∧
    (update_assessment (import_data [rowZhang] nowDate emptyStore).2 1
        ((150 : ℚ) :: List.replicate 21 0)).assessments.map Assessment.scores
      = [((150 : ℚ) :: List.replicate 21 0).map some] := by
  refine ⟨by decide, by decide, by decide, by decide⟩

/-- C6 (code bug): on the displayed-total read path a dimension whose
stored value is `NULL` is NOT treated as 0 — `scores.get(dim, 0)`
returns `None` for a present-but-`None` key and `None * weight` raises
`TypeError` (modelled as `none`).  `handle_none_scores` would repair the
record (giving total 0 here) but is never called by the source. -/
theorem C6_null_score_raises_on_read_path :
    calculate_total_score [("专业技术能力", none)] WEIGHTS DIMENSIONS = none ∧
    calculate_total_score (handle_none_scores [("专业技术能力", none)] DIMENSIONS)
        WEIGHTS DIMENSIONS = some 0 := by
  refine ⟨by decide, ?_⟩
  rw [calc_eq_sum _ _ _ (by decide)]
  have hsum :
      (DIMENSIONS.map
        (fun d =>
          (dictGet (handle_none_scores [("专业技术能力", none)] DIMENSIONS) d).getD 0
            * WEIGHTS d)).sum = 0 := by
    refine List.sum_eq_zero ?_
    intro x hx
    obtain ⟨d, hd, rfl⟩ := List.mem_map.1 hx
    have hzero :
        dictGet (handle_none_scores [("专业技术能力", none)] DIMENSIONS) d = some 0 := by
      fin_cases hd <;> rfl
    rw [hzero]
    simp
  rw [hsum]

/-- C7 (counterexample): in a store where one leader has two records
sharing the maximal date, the latest-per-leader query returns BOTH
records (ids 1 and 2, both for leader 1), not exactly one record for
that leader. -/
theorem C7_counterexample_tied_dates :
    (get_all_leaders_assessments tieStore).map (fun p => (p.1.id, p.1.leader_id))
      = [(1, 1), (2, 1)] := by
  decide

/-- C8 (counterexample): the claim quantifies over every weight
assignment summing to 1; with the mixed-sign weights `{A: 2, B: -1}`
(which sum to 1) and in-range scores `{A: 100, B: 0}`, the computed
total is 200, outside `[0, 100]`. -/
theorem C8_counterexample_negative_weight :
    (["A", "B"].map wMixed).sum = 1 ∧
    (∀ d ∈ ["A", "B"], dictGet [("A", some 100), ("B", some 0)] d ≠ none ∧
      0 ≤ (dictGet [("A", some 100), ("B", some 0)] d).getD 0 ∧
      (dictGet [("A", some 100), ("B", some 0)] d).getD 0 ≤ 100) ∧
    calculate_total_score [("A", some 100), ("B", some 0)] wMixed ["A", "B"]
      = some 200 ∧
    ¬ ((200 : ℚ) ≤ 100) := by
  have e1 : wMixed "A" = 2 := rfl
  have e2 : wMixed "B" = -1 := rfl
  have gA : dictGet [("A", some 100), ("B", some 0)] "A" = some 100 := rfl
  have gB : dictGet [("A", some 100), ("B", some 0)] "B" = some 0 := rfl
  refine ⟨?_, by decide, ?_, by decide⟩
  · simp only [List.map_cons, List.map_nil, List.sum_cons, List.sum_nil, e1, e2]
    norm_num
  · rw [calc_eq_sum _ _ _ (by decide)]
    simp only [List.map_cons, List.map_nil, List.sum_cons, List.sum_nil,
      gA, gB, Option.getD_some, e1, e2]
    norm_num

/-- C1: for every score dict whose looked-up values are numbers (a
well-formed ScoreRecord maps keys to floats, never to `None`) and every
dimension registry, the scoring engine's total is exactly
`Σ scores.get(key, 0) * weight` over the registry's dimensions: the
weights are applied unchanged, a missing key contributes
`0 * weight`, and no renormalisation takes place. -/
theorem C1_total_is_weighted_sum (scores : ScoreDict) (weights : String → ℚ)
    (dims : List String) (h : ∀ d ∈ dims, dictGet scores d ≠ none) :
    calculate_total_score scores weights dims
      = some ((dims.map (fun d => (dictGet scores d).getD 0 * weights d)).sum) :=
  calc_eq_sum scores weights dims h

/-- Witness for C1: the record `{A: 90}` scored over the registry
`[A, B]`, with `B` missing from the record. -/
theorem C1_total_is_weighted_sum_witness :
    calculate_total_score [("A", some 90)] wHalf ["A", "B"]
      = some ((["A", "B"].map
          (fun d => (dictGet [("A", some 90)] d).getD 0 * wHalf d)).sum) :=
  C1_total_is_weighted_sum [("A", some 90)] wHalf ["A", "B"] (by decide)

/-- Each weighted term is nonnegative and at most `100 * weight`, so the
weighted sum lies between `0` and `100 * (sum of the weights)`. -/
theorem weighted_sum_bounds (w v : String → ℚ) :
    ∀ dims : List String,
      (∀ d ∈ dims, 0 ≤ w d) →
      (∀ d ∈ dims, 0 ≤ v d ∧ v d ≤ 100) →
      0 ≤ (dims.map (fun d => v d * w d)).sum ∧
        (dims.map (fun d => v d * w d)).sum ≤ 100 * (dims.map w).sum
  | [], _, _ => by simp
  | d :: ds, hw, hv => by
    obtain ⟨ih0, ih1⟩ :=
      weighted_sum_bounds w v ds
        (fun x hx => hw x (List.mem_cons_of_mem d hx))
        (fun x hx => hv x (List.mem_cons_of_mem d hx))
    have hwd := hw d (List.mem_cons_self d ds)
    obtain ⟨hv0, hv1⟩ := hv d (List.mem_cons_self d ds)
    have hterm0 : 0 ≤ v d * w d := mul_nonneg hv0 hwd
    have hterm1 : v d * w d ≤ 100 * w d := mul_le_mul_of_nonneg_right hv1 hwd
    simp only [List.map_cons, List.sum_cons]
    constructor
    · linarith
    · linarith

/-- C8 (amended): for every score dict whose looked-up dimension values
are numbers in `[0, 100]`, and every weight assignment with NONNEGATIVE
weights summing to `1` (as the configured uniform `1/22` weights are),
the computed total lies in `[0, 100]`.  (The nonnegativity hypothesis is
what the counterexample forces the claim to add.) -/
theorem C8_amended_total_in_range (dims : List String) (weights : String → ℚ)
    (scores : ScoreDict)
    (hw0 : ∀ d ∈ dims, 0 ≤ weights d)
    (hw1 : (dims.map weights).sum = 1)
    (hs : ∀ d ∈ dims, dictGet scores d ≠ none ∧
      0 ≤ (dictGet scores d).getD 0 ∧ (dictGet scores d).getD 0 ≤ 100) :
    ∃ t, calculate_total_score scores weights dims = some t ∧ 0 ≤ t ∧ t ≤ 100 := by
  obtain ⟨h0, h1⟩ :=
    weighted_sum_bounds weights (fun d => (dictGet scores d).getD 0) dims hw0
      (fun d hd => ⟨(hs d hd).2.1, (hs d hd).2.2⟩)
  refine ⟨_, calc_eq_sum scores weights dims (fun d hd => (hs d hd).1), h0, ?_⟩
  rw [hw1] at h1
  linarith

/-- Witness for C8 (amended): the record `{A: 90, B: 80}` under the
half-half weights. -/
theorem C8_amended_total_in_range_witness :
    ∃ t, calculate_total_score [("A", some 90), ("B", some 80)] wHalf ["A", "B"]
      = some t ∧ 0 ≤ t ∧ t ≤ 100 :=
  C8_amended_total_in_range ["A", "B"] wHalf [("A", some 90), ("B", some 80)]
    (fun d _ => by norm_num [wHalf])
    (by simp only [List.map_cons, List.map_nil, List.sum_cons, List.sum_nil, wHalf]
        norm_num)
    (by decide)

/-- C9: grade bucketing is monotonic — under any threshold table, a
strictly larger total never receives a grade of smaller rank (the rank
order being Excellent > Good > Acceptable > NeedsImprovement). -/
theorem C9_grade_monotone (thr : Thresholds) (t1 t2 : ℚ) (h : t2 < t1) :
    gradeRank (grade thr t2) ≤ gradeRank (grade thr t1) := by
  unfold grade
  split_ifs <;> simp only [gradeRank] <;> first | (exfalso; linarith) | norm_num

/-- Witness for C9: totals 70 < 80 under the configured thresholds. -/
theorem C9_grade_monotone_witness :
    gradeRank (grade THRESHOLDS 70) ≤ gradeRank (grade THRESHOLDS 80) :=
  C9_grade_monotone THRESHOLDS 80 70 (by decide)

/-- A character is determined by its code point. -/
theorem char_eq_of_toNat_eq {x y : Char} (h : x.toNat = y.toNat) : x = y := by
  cases x with
  | mk xv hxv =>
    cases y with
    | mk yv hyv =>
      cases xv with
      | mk xf =>
        cases yv with
        | mk yf =>
          have hf : xf = yf := BitVec.eq_of_toNat_eq h
          subst hf
          rfl

/-- A string is determined by its character list. -/
theorem string_eq_of_data_eq {a b : String} (h : a.data = b.data) : a = b := by
  cases a
  cases b
  exact congrArg String.mk h

/-- The store's string comparison is irreflexive. -/
theorem clexLt_irrefl : ∀ l : List Char, clexLt l l = false
  | [] => rfl
  | c :: cs => by simp [clexLt, clexLt_irrefl cs]

/-- The store's string comparison is transitive. -/
theorem clexLt_trans : ∀ a b c : List Char,
    clexLt a b = true → clexLt b c = true → clexLt a c = true
  | [], _ :: _, _ :: _, _, _ => rfl
  | [], [], _, h1, _ => by simp [clexLt] at h1
  | [], _ :: _, [], _, h2 => by simp [clexLt] at h2
  | _ :: _, [], _, h1, _ => by simp [clexLt] at h1
  | _ :: _, _ :: _, [], _, h2 => by simp [clexLt] at h2
  | a :: as, b :: bs, c :: cs, h1, h2 => by
    simp only [clexLt] at h1 h2 ⊢
    split_ifs at h1 h2 ⊢ <;>
      first
        | rfl
        | (exact clexLt_trans as bs cs h1 h2)
        | (exfalso; omega)

/-- Two lists neither of which precedes the other are equal. -/
theorem clexLt_eq_of_not_lt : ∀ a b : List Char,
    clexLt a b = false → clexLt b a = false → a = b
  | [], [], _, _ => rfl
  | [], _ :: _, h1, _ => by simp [clexLt] at h1
  | _ :: _, [], _, h2 => by simp [clexLt] at h2
  | a :: as, b :: bs, h1, h2 => by
    simp only [clexLt] at h1 h2
    by_cases hab : a.toNat < b.toNat
    · rw [if_pos hab] at h1
      exact absurd h1 (by simp)
    · by_cases hba : b.toNat < a.toNat
      · rw [if_pos hba] at h2
        exact absurd h2 (by simp)
      · rw [if_neg hab, if_neg hba] at h1
        rw [if_neg hba, if_neg hab] at h2
        have hc : a = b := char_eq_of_toNat_eq (by omega)
        rw [hc, clexLt_eq_of_not_lt as bs h1 h2]

/-- The store's string comparison is asymmetric. -/
theorem clexLt_asymm (a b : List Char) (h : clexLt a b = true) :
    clexLt b a = false := by
  by_contra hc
  rw [Bool.not_eq_false] at hc
  have hcontra := clexLt_trans a b a h hc
  rw [clexLt_irrefl] at hcontra
  exact Bool.false_ne_true hcontra

/-- Greater-or-equal (the negation of the comparison) is transitive. -/
theorem clexLt_ge_trans (a b c : List Char)
    (hab : clexLt a b = false) (hbc : clexLt b c = false) :
    clexLt a c = false := by
  by_contra hc
  rw [Bool.not_eq_false] at hc
  by_cases hba : clexLt b a = true
  · have hcontra := clexLt_trans b a c hba hc
    rw [hbc] at hcontra
    exact Bool.false_ne_true hcontra
  · have hba' : clexLt b a = false := by
      revert hba
      cases clexLt b a <;> simp
    have heq : a = b := clexLt_eq_of_not_lt a b hab hba'
    rw [heq, hbc] at hc
    exact Bool.false_ne_true hc

/-- `strMax a b` is one of `a` and `b`. -/
theorem strMax_cases (a b : String) : strMax a b = a ∨ strMax a b = b := by
  unfold strMax
  split_ifs <;> simp

/-- `strMax a b` is not below `a`. -/
theorem strMax_ge_left (a b : String) :
    clexLt (strMax a b).data a.data = false := by
  unfold strMax
  split_ifs with h
  · exact clexLt_asymm _ _ h
  · exact clexLt_irrefl _

/-- `strMax a b` is not below `b`. -/
theorem strMax_ge_right (a b : String) :
    clexLt (strMax a b).data b.data = false := by
  unfold strMax
  split_ifs with h
  · exact clexLt_irrefl _
  · revert h
    cases clexLt a.data b.data <;> simp

/-- The running maximum belongs to the scanned list. -/
theorem foldl_strMax_mem : ∀ (rest : List String) (s : String),
    rest.foldl strMax s ∈ s :: rest
  | [], s => List.mem_cons_self s []
  | r :: rest, s => by
    rw [List.foldl_cons]
    have hmem := foldl_strMax_mem rest (strMax s r)
    rcases List.mem_cons.1 hmem with h | h
    · rw [h]
      rcases strMax_cases s r with h2 | h2 <;> rw [h2] <;> simp
    · exact List.mem_cons_of_mem _ (List.mem_cons_of_mem _ h)

/-- The running maximum is not below any scanned element. -/
theorem foldl_strMax_ge : ∀ (rest : List String) (s x : String), x ∈ s :: rest →
    clexLt (rest.foldl strMax s).data x.data = false
  | [], s, x, hx => by
    have hxs : x = s := by simpa using hx
    rw [List.foldl_nil, hxs]
    exact clexLt_irrefl _
  | r :: rest, s, x, hx => by
    rw [List.foldl_cons]
    have hgeM : clexLt (rest.foldl strMax (strMax s r)).data (strMax s r).data = false :=
      foldl_strMax_ge rest (strMax s r) (strMax s r)
        (List.mem_cons_self _ _)
    rcases List.mem_cons.1 hx with h1 | hx'
    · rw [h1]
      exact clexLt_ge_trans _ _ _ hgeM (strMax_ge_left s r)
    · rcases List.mem_cons.1 hx' with h2 | h3
      · rw [h2]
        exact clexLt_ge_trans _ _ _ hgeM (strMax_ge_right s r)
      · exact foldl_strMax_ge rest (strMax s r) x (List.mem_cons_of_mem _ h3)

/-- `MAX(date)` characterised: the aggregate returns `m` exactly when
`m` belongs to the group and no group member exceeds it. -/
theorem maxDate_eq_iff (l : List String) (m : String) :
    maxDate l = some m ↔ (m ∈ l ∧ ∀ s ∈ l, clexLt m.data s.data = false) := by
  cases l with
  | nil => simp [maxDate]
  | cons h tl =>
    constructor
    · intro he
      have hm : tl.foldl strMax h = m := by
        simpa [maxDate] using he
      rw [← hm]
      exact ⟨foldl_strMax_mem tl h, fun s hs => foldl_strMax_ge tl h s hs⟩
    · rintro ⟨hmem, hge⟩
      have h1 : clexLt (tl.foldl strMax h).data m.data = false :=
        foldl_strMax_ge tl h m hmem
      have h2 : clexLt m.data (tl.foldl strMax h).data = false :=
        hge _ (foldl_strMax_mem tl h)
      have heq : tl.foldl strMax h = m :=
        string_eq_of_data_eq (clexLt_eq_of_not_lt _ _ h1 h2)
      simp [maxDate, heq]

/-- Membership in a leader's date group. -/
theorem mem_leaderDates (st : Store) (lid : Nat) (s : String) :
    s ∈ leaderDates st lid
      ↔ ∃ b ∈ st.assessments, b.leader_id = lid ∧ b.date = s := by
  simp only [leaderDates, List.mem_map, List.mem_filter, beq_iff_eq]
  constructor
  · rintro ⟨b, ⟨hb, hlid⟩, rfl⟩
    exact ⟨b, hb, hlid, rfl⟩
  · rintro ⟨b, hb, hlid, rfl⟩
    exact ⟨b, ⟨hb, hlid⟩, rfl⟩

/-- C7 (amended): the latest-per-leader query returns exactly the
assessment/leader pairs whose assessment date equals the maximum date of
that leader's group under the store's string order — so a leader with a
unique maximal date contributes exactly one row, but a leader whose
maximal date is shared by several records contributes ALL of them, not
one. -/
theorem C7_amended_query_returns_all_max_date_records
    (st : Store) (a : Assessment) (g : Leader) :
    (a, g) ∈ get_all_leaders_assessments st
      ↔ (a ∈ st.assessments ∧ g ∈ st.leaders ∧ g.id = a.leader_id ∧
          ∀ b ∈ st.assessments, b.leader_id = a.leader_id →
            clexLt a.date.data b.date.data = false) := by
  unfold get_all_leaders_assessments
  rw [List.mem_filter]
  have hflat :
      (a, g) ∈ ((st.assessments.map
        (fun a' =>
          (st.leaders.filter (fun g' => g'.id == a'.leader_id)).map
            (fun g' => (a', g')))).flatten)
        ↔ (a ∈ st.assessments ∧ g ∈ st.leaders ∧ g.id = a.leader_id) := by
    simp only [List.mem_flatten, List.mem_map, List.mem_filter, beq_iff_eq]
    constructor
    · rintro ⟨s, ⟨a', ha', rfl⟩, hp⟩
      simp only [List.mem_map, List.mem_filter, beq_iff_eq, Prod.mk.injEq] at hp
      obtain ⟨g', ⟨hg', hid⟩, heq1, heq2⟩ := hp
      exact heq1 ▸ heq2 ▸ ⟨ha', hg', hid⟩
    · rintro ⟨ha, hg, hid⟩
      refine ⟨(st.leaders.filter (fun g' => g'.id == a.leader_id)).map
        (fun g' => (a, g')), ⟨a, ha, rfl⟩, ?_⟩
      simp only [List.mem_map, List.mem_filter, beq_iff_eq]
      exact ⟨g, ⟨hg, hid⟩, rfl⟩
  constructor
  · rintro ⟨hin, hcond⟩
    obtain ⟨ha, hg, hid⟩ := hflat.1 hin
    refine ⟨ha, hg, hid, ?_⟩
    have hmax : maxDate (leaderDates st a.leader_id) = some a.date := by
      simpa [beq_iff_eq] using hcond
    have hspec := (maxDate_eq_iff _ _).1 hmax
    intro b hb hbl
    exact hspec.2 b.date ((mem_leaderDates st a.leader_id b.date).2 ⟨b, hb, hbl, rfl⟩)
  · rintro ⟨ha, hg, hid, hge⟩
    refine ⟨hflat.2 ⟨ha, hg, hid⟩, ?_⟩
    have hmax : maxDate (leaderDates st a.leader_id) = some a.date := by
      refine (maxDate_eq_iff _ _).2 ⟨?_, ?_⟩
      · exact (mem_leaderDates st a.leader_id a.date).2 ⟨a, ha, rfl, rfl⟩
      · intro s hs
        obtain ⟨b, hb, hbl, rfl⟩ := (mem_leaderDates st a.leader_id s).1 hs
        exact hge b hb hbl
    simp [hmax]

/-- Witness for C7 (amended): the characterisation instantiated at the
tied-dates store. -/
theorem C7_amended_query_returns_all_max_date_records_witness :
    ((⟨1, 1, "2024/01/01", zeroScores.map some, "2025/01/02"⟩ : Assessment),
        (⟨1, "张三", "A区"⟩ : Leader)) ∈ get_all_leaders_assessments tieStore
      ↔ ((⟨1, 1, "2024/01/01", zeroScores.map some, "2025/01/02"⟩ : Assessment)
            ∈ tieStore.assessments ∧
          (⟨1, "张三", "A区"⟩ : Leader) ∈ tieStore.leaders ∧
          (⟨1, "张三", "A区"⟩ : Leader).id
            = (⟨1, 1, "2024/01/01", zeroScores.map some, "2025/01/02"⟩ : Assessment).leader_id ∧
          ∀ b ∈ tieStore.assessments,
            b.leader_id
                = (⟨1, 1, "2024/01/01", zeroScores.map some, "2025/01/02"⟩ : Assessment).leader_id →
              clexLt (⟨1, 1, "2024/01/01", zeroScores.map some, "2025/01/02"⟩ : Assessment).date.data
                b.date.data = false) :=
  C7_amended_query_returns_all_max_date_records tieStore _ _

/-- Code point of a digit character. -/
theorem digitChar_toNat (n : Nat) (h : n < 10) : (digitChar n).toNat = 48 + n := by
  interval_cases n <;> decide

/-- Comparing same-length blocks followed by tails: the blocks decide
unless they tie, in which case the tails decide. -/
theorem clexLt_append_eqlen : ∀ (xs ys r1 r2 : List Char), xs.length = ys.length →
    clexLt (xs ++ r1) (ys ++ r2)
      = (if clexLt xs ys = true then true
          else if clexLt ys xs = true then false
          else clexLt r1 r2)
  | [], [], r1, r2, _ => by simp [clexLt]
  | [], _ :: _, _, _, h => by simp at h
  | _ :: _, [], _, _, h => by simp at h
  | x :: xs, y :: ys, r1, r2, h => by
    have h' : xs.length = ys.length := by simpa using h
    simp only [List.cons_append, clexLt]
    by_cases h1 : x.toNat < y.toNat
    · simp [h1]
    · by_cases h2 : y.toNat < x.toNat
      · simp [h1, h2]
      · simp only [if_neg h1, if_neg h2]
        exact clexLt_append_eqlen xs ys r1 r2 h'

/-- Equal heads cancel in the comparison. -/
theorem clexLt_cons_same (c : Char) (u v : List Char) :
    clexLt (c :: u) (c :: v) = clexLt u v := by
  simp [clexLt]

/-- The comparison of two zero-padded two-digit renderings agrees with
the numeric order. -/
theorem clexLt_pad2 (a b : Nat) (ha : a < 100) (hb : b < 100) :
    clexLt (pad2 a) (pad2 b) = decide (a < b) := by
  simp only [pad2, clexLt]
  rw [digitChar_toNat (a / 10 % 10) (Nat.mod_lt _ (by norm_num)),
    digitChar_toNat (a % 10) (Nat.mod_lt _ (by norm_num)),
    digitChar_toNat (b / 10 % 10) (Nat.mod_lt _ (by norm_num)),
    digitChar_toNat (b % 10) (Nat.mod_lt _ (by norm_num))]
  split_ifs <;>
    first
      | (apply Eq.symm; rw [decide_eq_true_eq]; omega)
      | (apply Eq.symm; rw [decide_eq_false_iff_not]; omega)

/-- The comparison of two zero-padded four-digit renderings agrees with
the numeric order. -/
theorem clexLt_pad4 (a b : Nat) (ha : a < 10000) (hb : b < 10000) :
    clexLt (pad4 a) (pad4 b) = decide (a < b) := by
  unfold pad4
  rw [clexLt_append_eqlen (pad2 (a / 100)) (pad2 (b / 100)) (pad2 (a % 100))
      (pad2 (b % 100)) rfl,
    clexLt_pad2 (a / 100) (b / 100) (by omega) (by omega),
    clexLt_pad2 (b / 100) (a / 100) (by omega) (by omega),
    clexLt_pad2 (a % 100) (b % 100) (by omega) (by omega)]
  split_ifs with h1 h2
  · rw [decide_eq_true_eq] at h1
    apply Eq.symm; rw [decide_eq_true_eq]; omega
  · rw [decide_eq_true_eq] at h2
    simp only [decide_eq_true_eq] at h1
    apply Eq.symm; rw [decide_eq_false_iff_not]; omega
  · simp only [decide_eq_true_eq] at h1 h2
    rw [decide_eq_decide]
    omega

/-- On a four-digit year the unpadded `%Y` rendering coincides with the
zero-padded one. -/
theorem padYear_eq_pad4 (n : Nat) (h1 : 1000 ≤ n) (h2 : n ≤ 9999) :
    padYear n = pad4 n := by
  unfold padYear
  rw [if_neg (by omega), if_neg (by omega), if_neg (by omega)]

/-- For dates with FOUR-DIGIT years (and parser-bounded fields) the
stored rendering is zero padded throughout, and SQLite's string
comparison of two such renderings agrees with the chronological order.
(For parser-accepted years below 1000 the year renders unpadded and the
agreement fails — see the C10 counterexample.) -/
theorem clexLt_formatDateChars (x y : Date) (hx : validDate x) (hy : validDate y)
    (hx4 : 1000 ≤ x.y) (hy4 : 1000 ≤ y.y) :
    clexLt (formatDateChars x) (formatDateChars y) = dateLtB x y := by
  obtain ⟨hxy, hxm, hxd⟩ := hx
  obtain ⟨hyy, hym, hyd⟩ := hy
  unfold formatDateChars
  rw [padYear_eq_pad4 x.y hx4 hxy, padYear_eq_pad4 y.y hy4 hyy]
  rw [clexLt_append_eqlen (pad4 x.y) (pad4 y.y)
      ('/' :: (pad2 x.m ++ '/' :: pad2 x.d)) ('/' :: (pad2 y.m ++ '/' :: pad2 y.d)) rfl,
    clexLt_pad4 x.y y.y (by omega) (by omega),
    clexLt_pad4 y.y x.y (by omega) (by omega)]
  rcases Nat.lt_trichotomy x.y y.y with hy1 | hy1 | hy1
  · rw [if_pos (by simp only [decide_eq_true_eq]; omega)]
    unfold dateLtB
    apply Eq.symm; rw [decide_eq_true_eq]
    exact Or.inl hy1
  · rw [if_neg (by simp only [decide_eq_true_eq]; omega),
      if_neg (by simp only [decide_eq_true_eq]; omega),
      clexLt_cons_same,
      clexLt_append_eqlen (pad2 x.m) (pad2 y.m)
        ('/' :: pad2 x.d) ('/' :: pad2 y.d) rfl,
      clexLt_pad2 x.m y.m (by omega) (by omega),
      clexLt_pad2 y.m x.m (by omega) (by omega)]
    rcases Nat.lt_trichotomy x.m y.m with hm1 | hm1 | hm1
    · rw [if_pos (by simp only [decide_eq_true_eq]; omega)]
      unfold dateLtB
      apply Eq.symm; rw [decide_eq_true_eq]
      omega
    · rw [if_neg (by simp only [decide_eq_true_eq]; omega),
        if_neg (by simp only [decide_eq_true_eq]; omega),
        clexLt_cons_same,
        clexLt_pad2 x.d y.d (by omega) (by omega)]
      unfold dateLtB
      rw [decide_eq_decide]
      omega
    · rw [if_neg (by simp only [decide_eq_true_eq]; omega),
        if_pos (by simp only [decide_eq_true_eq]; omega)]
      unfold dateLtB
      apply Eq.symm; rw [decide_eq_false_iff_not]
      omega
  · rw [if_neg (by simp only [decide_eq_true_eq]; omega),
      if_pos (by simp only [decide_eq_true_eq]; omega)]
    unfold dateLtB
    apply Eq.symm; rw [decide_eq_false_iff_not]
    omega

/-- A digit string's value is below the power of ten matching its
length (generalised over the running accumulator). -/
theorem digitsVal_go_lt : ∀ (cs : List Char) (acc : Nat), cs.all isDigitC = true →
    cs.foldl (fun a c => 10 * a + (c.toNat - 48)) acc < (acc + 1) * 10 ^ cs.length
  | [], acc, _ => by simp
  | c :: cs, acc, h => by
    simp only [List.all_cons, Bool.and_eq_true] at h
    have hc : c.toNat - 48 ≤ 9 := by
      have hdig := h.1
      simp only [isDigitC, Bool.and_eq_true, decide_eq_true_eq] at hdig
      omega
    have ih := digitsVal_go_lt cs (10 * acc + (c.toNat - 48)) h.2
    simp only [List.foldl_cons, List.length_cons]
    refine lt_of_lt_of_le ih ?_
    have hstep : 10 * acc + (c.toNat - 48) + 1 ≤ 10 * (acc + 1) := by omega
    calc (10 * acc + (c.toNat - 48) + 1) * 10 ^ cs.length
        ≤ (10 * (acc + 1)) * 10 ^ cs.length := Nat.mul_le_mul_right _ hstep
      _ = (acc + 1) * 10 ^ (cs.length + 1) := by ring

/-- A four-digit string has value at most 9999. -/
theorem digitsVal_le_9999 (cs : List Char) (hd : cs.all isDigitC = true)
    (hl : cs.length = 4) : digitsVal cs ≤ 9999 := by
  have := digitsVal_go_lt cs 0 hd
  rw [hl] at this
  simp only [digitsVal]
  omega

/-- No month has more than 31 days. -/
theorem daysInMonth_le_31 (y m : Nat) : daysInMonth y m ≤ 31 := by
  unfold daysInMonth
  split_ifs <;> omega

/-- Every date accepted by the `%Y-%m-%d` parser has its fields within
the bounds that keep the padded rendering order-faithful. -/
theorem parseYMD_valid (s : List Char) (dt : Date) (h : parseYMD s = some dt) :
    validDate dt := by
  unfold parseYMD at h
  split at h
  · rename_i ys ms ds heq
    simp only [Option.ite_none_right_eq_some, Option.some.injEq] at h
    obtain ⟨h1, h2, hdt⟩ := h
    subst hdt
    simp only [Bool.and_eq_true, decide_eq_true_eq] at h1 h2
    obtain ⟨⟨⟨⟨⟨⟨⟨hYdig, hYlen⟩, hMdig⟩, hMlen1⟩, hMlen2⟩, hDdig⟩, hDlen1⟩, hDlen2⟩ := h1
    obtain ⟨⟨⟨⟨hy1, hm1⟩, hm12⟩, hd1⟩, hdmax⟩ := h2
    have hy : digitsVal ys ≤ 9999 := digitsVal_le_9999 ys hYdig hYlen
    have hd31 := daysInMonth_le_31 (digitsVal ys) (digitsVal ms)
    exact ⟨hy, show digitsVal ms ≤ 99 by omega, show digitsVal ds ≤ 99 by omega⟩
  · exact absurd h (by simp)

/-- Every date accepted by the row date parser has in-bounds fields. -/
theorem parseDate_valid (s : String) (dt : Date) (h : parseDate s = some dt) :
    validDate dt := by
  unfold parseDate parseDateChars at h
  by_cases hc : s.data.contains ' '
  · rw [if_pos hc] at h
    cases hY : parseYMD (s.data.takeWhile (fun c => !isSpaceC c)) with
    | none => rw [hY] at h; exact absurd h (by simp)
    | some dt' =>
      rw [hY] at h
      simp only [Option.ite_none_right_eq_some, Option.some.injEq] at h
      obtain ⟨_, hdt⟩ := h
      subst hdt
      exact parseYMD_valid _ dt' hY
  · rw [if_neg hc] at h
    exact parseYMD_valid s.data dt h

/-- The leader-insertion phase does not touch the assessments table. -/
theorem foldl_addLeader_assessments :
    ∀ (ds : List Row) (st : Store),
      ((ds.foldl (fun s r => addLeader s r.name r.area) st).assessments)
        = st.assessments
  | [], _ => rfl
  | r :: ds, st => by
    rw [List.foldl_cons, foldl_addLeader_assessments ds (addLeader st r.name r.area)]
    rfl

/-- Every assessment present after the assessment-insertion loop either
predates the loop or carries a normalised date (the rendering of an
in-bounds parsed date) and the supplied import stamp. -/
theorem insertAssessments_dates (imp : String) :
    ∀ (rows : List Row) (st : Store) (a : Assessment),
      a ∈ (insertAssessments imp rows st).2.assessments →
      a ∈ st.assessments ∨
        ((∃ dt, validDate dt ∧ a.date = formatDate dt) ∧ a.import_date = imp)
  | [], _, _, ha => Or.inl ha
  | r :: rs, st, a, ha => by
    cases hf : findLeaderIdByName st r.name with
    | none =>
      simp only [insertAssessments, hf] at ha
      exact insertAssessments_dates imp rs st a ha
    | some lid =>
      cases hd : parseDate r.date with
      | none =>
        simp only [insertAssessments, hf, hd] at ha
        exact Or.inl ha
      | some dt =>
        simp only [insertAssessments, hf, hd] at ha
        rcases insertAssessments_dates imp rs _ a ha with hold | hnew
        · simp only [addAssessment, List.mem_append, List.mem_singleton] at hold
          rcases hold with h1 | h1
          · exact Or.inl h1
          · subst h1
            exact Or.inr ⟨⟨dt, parseDate_valid r.date dt hd, rfl⟩, rfl⟩
        · exact Or.inr hnew

/-- C10 (counterexample): the parser accepts `0099-12-31`, whose year
`strftime('%Y')` renders UNPADDED, so the importer persists the
two-character-year date `99/12/31` — not a zero-padded `YYYY/MM/DD`
string — and the store's string comparison then disagrees with
chronology: `99/12/31` is chronologically before `2024/01/01` but sorts
strictly after it. -/
theorem C10_counterexample_unpadded_small_year :
    parseDate "0099-12-31" = some ⟨99, 12, 31⟩ ∧
    (import_data [row0099] nowDate emptyStore).2.assessments.map Assessment.date
      = ["99/12/31"] ∧
    dateLtB ⟨99, 12, 31⟩ ⟨2024, 1, 1⟩ = true ∧
    clexLt (formatDate ⟨99, 12, 31⟩).data (formatDate ⟨2024, 1, 1⟩).data = false ∧
    clexLt (formatDate ⟨2024, 1, 1⟩).data (formatDate ⟨99, 12, 31⟩).data = true := by
  refine ⟨by decide, by decide, by decide, by decide, by decide⟩

/-- C10 (amended): every date the importer persists is the `%Y/%m/%d`
rendering of an in-bounds parsed date and every import stamp is the same
rendering of the wall-clock date; and for dates with FOUR-DIGIT years
(1000-9999) — where that rendering is zero padded throughout — the
store's plain string comparison (used by `MAX(date)`, `ORDER BY date
DESC` and the retention purge's `import_date < cutoff`) agrees exactly
with chronological order.  Parser-accepted years below 1000 render
unpadded and break the agreement, as the counterexample shows. -/
theorem C10_amended_order_agreement_for_four_digit_years :
    (∀ (rows : List Row) (now : Date) (st : Store) (a : Assessment),
        a ∈ (import_data rows now st).2.assessments →
        a ∈ st.assessments ∨
          ((∃ dt, validDate dt ∧ a.date = formatDate dt) ∧
            a.import_date = formatDate now)) ∧
    (∀ x y : Date, validDate x → validDate y → 1000 ≤ x.y → 1000 ≤ y.y →
        clexLt (formatDate x).data (formatDate y).data = dateLtB x y) := by
  constructor
  · intro rows now st a ha
    unfold import_data at ha
    rcases insertAssessments_dates (formatDate now) rows (insertLeaders rows st) a ha
      with hold | hnew
    · unfold insertLeaders at hold
      rw [foldl_addLeader_assessments] at hold
      exact Or.inl hold
    · exact Or.inr hnew
  · intro x y hx hy hx4 hy4
    exact clexLt_formatDateChars x y hx hy hx4 hy4

/-- Witness for C10 (amended): the record imported from `rowZhang`
carries rendered date strings, and two concrete four-digit-year dates
compare like the calendar. -/
theorem C10_amended_order_agreement_for_four_digit_years_witness :
    (aZhang ∈ emptyStore.assessments ∨
      ((∃ dt, validDate dt ∧ aZhang.date = formatDate dt) ∧
        aZhang.import_date = formatDate nowDate)) ∧
    clexLt (formatDate ⟨2024, 1, 2⟩).data (formatDate ⟨2024, 1, 10⟩).data
      = dateLtB ⟨2024, 1, 2⟩ ⟨2024, 1, 10⟩ :=
  ⟨C10_amended_order_agreement_for_four_digit_years.1 [rowZhang] nowDate emptyStore
      aZhang (by decide),
   C10_amended_order_agreement_for_four_digit_years.2 ⟨2024, 1, 2⟩ ⟨2024, 1, 10⟩
      (by decide) (by decide) (by decide) (by decide)⟩

end Wgz
